import Mathlib

/-!
Verification of the batched-sink engine (src/src/batchedSink.ts).

The TypeScript class BatchedSink is embedded as an explicit state machine.
Machine state mirrors the class fields; the asynchronous dispatch of a batch
(`emitCore` and the `.then`/`.catch` continuations in `cycleBatch`) is modelled
by a list of pending dispatches plus two separate resolution transitions
(success removes the durable entry for the dispatched key, failure re-prepends
the snapshot to the active buffer).  Two ghost fields instrument the state for
the specification: `dispatched` records, in order, every batch handed to
`emitCore`, and `cycleCalls` counts invocations of `cycleBatch`.

Modelling decisions, all from the source:
* `new Date().getTime()` is modelled by a `clock` counter that advances on each
  key refresh, so batch keys are the strings `<namespace>-<n>` with `n` fresh
  per cycle ("normal clock behaviour" in the spec's words).
* The durable `Storage` is an association list with unique keys; `setItem`
  replaces an existing entry in place, `removeItem` filters the key out,
  `for (const key in store)` iterates the entries in list order.
* JSON serialisation of the opaque events is the identity on the event record
  except that rehydration rebuilds the message template from its `raw` field
  (line 54 of the source), which `reviveEvent` mirrors.
* The `while` loop of `emit` is written with explicit fuel (`events.length + 1`
  suffices whenever `maxSize ≥ 1`; with `maxSize = 0` the JavaScript loop would
  not terminate, so theorems about the loop assume `1 ≤ maxSize`, matching the
  spec's "maxSize (positive integer)").
-/

/-- Message template payload: the core only ever touches its raw text
(source line 54), so only that field is modelled. -/
structure MessageTemplate where
  raw : String
deriving DecidableEq, Repr

/-- Opaque log event: the message-template payload plus an abstract payload
standing for the remaining fields (timestamp, level, properties), which the
engine never inspects. -/
structure LogEvent where
  messageTemplate : MessageTemplate
  payload : Nat
deriving DecidableEq, Repr

/-- The durable store: an association list of key/value entries, value being
the serialised event list. -/
abbrev Store := List (String × List LogEvent)

/-- Storage.getItem: value of the first entry with the given key. -/
def getItem (st : Store) (k : String) : Option (List LogEvent) :=
  (st.find? (fun p => p.1 == k)).map Prod.snd

/-- Storage.setItem: replace the entry with the given key, or append a new
entry when the key is absent. -/
def setItem : Store → String → List LogEvent → Store
  | [], k, v => [(k, v)]
  | e :: rest, k, v => if e.1 == k then (k, v) :: rest else e :: setItem rest k v

/-- Storage.removeItem: drop the entries with the given key. -/
def removeItem (st : Store) (k : String) : Store :=
  st.filter (fun p => p.1 != k)

/-- The namespace of this engine's durable entries (field durableStorageKey). -/
def durableStorageKey : String := "serilogger-batched-sink-durable-cache"

/-- Batch keys have the shape durableStorageKey-(time) (source line 136). -/
def mkBatchKey (t : Nat) : String :=
  durableStorageKey ++ "-" ++ toString t

/-- The test key.indexOf(durableStorageKey) === 0 of line 50: the key starts
with the namespace, stated on the underlying character list. -/
def matchesNamespace (k : String) : Bool :=
  k.data.take durableStorageKey.data.length == durableStorageKey.data

/-- State of one BatchedSink instance.  The first three fields are the merged
options and the presence of the inner sink; then the mutable class fields; then
the pending asynchronous dispatches and the two ghost trace fields. -/
structure SinkState where
  maxSize : Nat
  periodValid : Bool
  innerSinkPresent : Bool
  batchedEvents : List LogEvent
  batchKey : String
  shouldCycleContinue : Bool
  timerArmed : Bool
  durableStore : Option Store
  pending : List (String × List LogEvent)
  dispatched : List (List LogEvent)
  cycleCalls : Nat
  clock : Nat
deriving DecidableEq, Repr

/-- Entry of cycleBatch: clear any pending timer (line 116) and count the
invocation in the ghost counter. -/
def beginCycle (s : SinkState) : SinkState :=
  { s with timerArmed := false, cycleCalls := s.cycleCalls + 1 }

/-- Lines 120-134: if the buffer is non-empty, snapshot it, empty it in place,
and hand the snapshot to emitCore; the promise continuations become a pending
dispatch tagged with the previous batch key. -/
def dispatchBuffer (s : SinkState) : SinkState :=
  if s.batchedEvents.length = 0 then s
  else
    { s with batchedEvents := [],
             pending := s.pending ++ [(s.batchKey, s.batchedEvents)],
             dispatched := s.dispatched ++ [s.batchedEvents] }

/-- Line 136: assign a fresh time-based batch key. -/
def refreshKey (s : SinkState) : SinkState :=
  { s with batchKey := mkBatchKey s.clock, clock := s.clock + 1 }

/-- Lines 138-143: rearm the timer when the period is a valid positive
number. -/
def armTimer (s : SinkState) : SinkState :=
  if s.periodValid then { s with timerArmed := true } else s

/-- cycleBatch (lines 115-144): clear the timer, stop here when halted
(line 118), otherwise dispatch a non-empty buffer, refresh the key and
rearm. -/
def cycleBatch (s : SinkState) : SinkState :=
  if s.shouldCycleContinue = false then beginCycle s
  else armTimer (refreshKey (dispatchBuffer (beginCycle s)))

/-- storeEvents (lines 146-153): mirror the whole buffer under the current
batch key when a durable store is configured (no store, no effect). -/
def storeEvents (s : SinkState) : SinkState :=
  { s with durableStore := s.durableStore.map (fun st => setItem st s.batchKey s.batchedEvents) }

/-- Append events to the buffer (the push calls of emit). -/
def appendEvents (E : List LogEvent) (s : SinkState) : SinkState :=
  { s with batchedEvents := s.batchedEvents ++ E }

/-- The while loop of emit (lines 77-83), with explicit fuel: while the cursor
has not consumed all events, force a cycle, append the next slice of at most
maxSize events and mirror the buffer. -/
def emitGo (m : Nat) (E : List LogEvent) : Nat → Nat → SinkState → SinkState
  | 0, _, s => s
  | fuel + 1, c, s =>
    if c < E.length then
      emitGo m E fuel (c + m) (storeEvents (appendEvents ((E.drop c).take m) (cycleBatch s)))
    else s

/-- emit (lines 66-87).  When the events fit in the remaining capacity they
are appended and mirrored in one step; otherwise the first slice fills the
buffer to maxSize (the cursor clamp `< 0 ? 0` is Nat subtraction) and the loop
consumes the rest.  The input list is returned unchanged (line 86). -/
def emit (E : List LogEvent) (s : SinkState) : List LogEvent × SinkState :=
  if s.batchedEvents.length + E.length ≤ s.maxSize then
    (E, storeEvents (appendEvents E s))
  else
    (E, emitGo s.maxSize E (E.length + 1) (s.maxSize - s.batchedEvents.length)
          (storeEvents (appendEvents (E.take (s.maxSize - s.batchedEvents.length)) s)))

/-- The completion signal returned by flush: either an immediately resolved
promise, or the inner sink's own flush promise (whose eventual outcome is the
sink's). -/
inductive FlushPromise where
  | immediate
  | downstream
deriving DecidableEq, Repr

/-- Resolution of a flush signal, given the outcome the downstream sink's
flush operation eventually produces (true = resolved, false = rejected). -/
def FlushPromise.outcome (sinkOutcome : Bool) : FlushPromise → Bool
  | .immediate => true
  | .downstream => sinkOutcome

/-- flushCore (lines 111-113): the inner sink's flush promise, or an
immediately resolved one. -/
def flushCore (s : SinkState) : FlushPromise :=
  if s.innerSinkPresent then .downstream else .immediate

/-- flush (lines 89-93): force one cycle, then return flushCore's promise. -/
def flush (s : SinkState) : FlushPromise × SinkState :=
  (flushCore (cycleBatch s), cycleBatch s)

/-- stopCycle (lines 100-103): set the halt flag and cancel any pending
timer. -/
def stopCycle (s : SinkState) : SinkState :=
  { s with shouldCycleContinue := false, timerArmed := false }

/-- Successful resolution of the i-th pending dispatch (the .then handler,
lines 126-130): drop it from the pending list and remove the durable entry
stored under the key the snapshot was dispatched with. -/
def resolveSuccess (s : SinkState) (i : Nat) : SinkState :=
  match s.pending[i]? with
  | none => s
  | some kevs =>
    { s with pending := s.pending.eraseIdx i,
             durableStore := s.durableStore.map (fun st => removeItem st kevs.1) }

/-- Failed resolution of the i-th pending dispatch (the .catch handler,
lines 131-133): drop it from the pending list and unshift the snapshot onto
the front of whatever buffer is active now.  The durable store is untouched. -/
def resolveFailure (s : SinkState) (i : Nat) : SinkState :=
  match s.pending[i]? with
  | none => s
  | some kevs =>
    { s with pending := s.pending.eraseIdx i,
             batchedEvents := kevs.2 ++ s.batchedEvents }

/-- Line 54: rebuild the message template of a deserialised event from its
raw text. -/
def reviveEvent (e : LogEvent) : LogEvent :=
  { e with messageTemplate := MessageTemplate.mk e.messageTemplate.raw }

/-- The rehydration for-in loop of the constructor (lines 49-60): for each key
of the store that starts with the namespace, parse and revive the stored
events, concatenate them onto the initial batch and remove the entry. -/
def rehydrateLoop : List String → List LogEvent → SinkState → List LogEvent × SinkState
  | [], acc, s => (acc, s)
  | k :: rest, acc, s =>
    if matchesNamespace k then
      match s.durableStore with
      | some st =>
        rehydrateLoop rest (acc ++ ((getItem st k).getD []).map reviveEvent)
          { s with durableStore := some (removeItem st k) }
      | none => rehydrateLoop rest acc s
    else rehydrateLoop rest acc s

/-- The freshly constructed field values (lines 39-45), before the first
cycleBatch call. -/
def initState (sink : Bool) (m : Nat) (p : Bool) (store : Option Store) (c0 : Nat) : SinkState :=
  { maxSize := m, periodValid := p, innerSinkPresent := sink,
    batchedEvents := [], batchKey := "", shouldCycleContinue := true,
    timerArmed := false, durableStore := store, pending := [], dispatched := [],
    cycleCalls := 0, clock := c0 }

/-- The constructor (lines 39-63): initialise the fields, run one cycleBatch,
and, when a durable store is configured, rehydrate every namespaced entry and
feed the concatenation through emit. -/
def construct (sink : Bool) (m : Nat) (p : Bool) (store : Option Store) (c0 : Nat) : SinkState :=
  match (cycleBatch (initState sink m p store c0)).durableStore with
  | none => cycleBatch (initState sink m p store c0)
  | some st =>
    (emit (rehydrateLoop (st.map Prod.fst) [] (cycleBatch (initState sink m p store c0))).1
          (rehydrateLoop (st.map Prod.fst) [] (cycleBatch (initState sink m p store c0))).2).2

/-- State component of emit, for the step relation. -/
def emitState (E : List LogEvent) (s : SinkState) : SinkState := (emit E s).2

/-- One externally observable transition of a constructed engine: a public
call (emit, flush, stopCycle), a timer firing (only possible while armed), or
the resolution of a pending dispatch.  A rejection can only come from an inner
sink (without one the promise is Promise.resolve()). -/
inductive Step : SinkState → SinkState → Prop where
  | emitEv (E : List LogEvent) (s : SinkState) : Step s (emitState E s)
  | flushEv (s : SinkState) : Step s (flush s).2
  | stopEv (s : SinkState) : Step s (stopCycle s)
  | timerFire (s : SinkState) (h : s.timerArmed = true) : Step s (cycleBatch s)
  | resolveOk (s : SinkState) (i : Nat) : Step s (resolveSuccess s i)
  | resolveFail (s : SinkState) (i : Nat) (h : s.innerSinkPresent = true) :
      Step s (resolveFailure s i)

/-- Finitely many transitions. -/
def Steps : SinkState → SinkState → Prop := Relation.ReflTransGen Step

/-- Keys currently present in the durable store. -/
def storeKeys (s : SinkState) : List String :=
  match s.durableStore with
  | none => []
  | some st => st.map Prod.fst

/-- The durable store holds at most one entry per key. -/
def keysNodup (s : SinkState) : Prop := (storeKeys s).Nodup

/-- A halted engine: the stop flag is set and no timer is scheduled. -/
def Halted (s : SinkState) : Prop :=
  s.shouldCycleContinue = false ∧ s.timerArmed = false

/-! ### Concrete scenario states (used by example-level theorems) -/

/-- A concrete event with an empty template and a distinguishing payload. -/
def ev (n : Nat) : LogEvent := { messageTemplate := { raw := "" }, payload := n }

/-- Engine of the emit-burst scenario: inner sink present, maxSize 3, period
disabled, no durable store. -/
def sDemo : SinkState := construct true 3 false none 0

/-- Engine with no inner sink configured. -/
def sNoSink : SinkState := construct false 3 false none 0

/-- Engine with a durable store and maxSize 1, then one event emitted and one
cycle forced by flush, leaving one pending dispatch. -/
def sC5 : SinkState := (flush ((emit [ev 1] (construct true 1 false (some []) 0)).2)).2

/-- The same engine after the pending dispatch fails. -/
def sFail : SinkState := resolveFailure sC5 0

/-- A stopped engine holding one buffered event. -/
def sStopped : SinkState := (emit [ev 1] (stopCycle sDemo)).2

/-- A pre-populated durable store with two namespaced entries. -/
def stC3 : Store :=
  [(durableStorageKey ++ "-a", [ev 1]), (durableStorageKey ++ "-b", [ev 2, ev 3])]

/-! ### Projection lemmas for the elementary operations -/

@[simp] lemma beginCycle_maxSize (s : SinkState) : (beginCycle s).maxSize = s.maxSize := rfl
@[simp] lemma beginCycle_periodValid (s : SinkState) : (beginCycle s).periodValid = s.periodValid := rfl
@[simp] lemma beginCycle_innerSinkPresent (s : SinkState) : (beginCycle s).innerSinkPresent = s.innerSinkPresent := rfl
@[simp] lemma beginCycle_batchedEvents (s : SinkState) : (beginCycle s).batchedEvents = s.batchedEvents := rfl
@[simp] lemma beginCycle_batchKey (s : SinkState) : (beginCycle s).batchKey = s.batchKey := rfl
@[simp] lemma beginCycle_cont (s : SinkState) : (beginCycle s).shouldCycleContinue = s.shouldCycleContinue := rfl
@[simp] lemma beginCycle_timerArmed (s : SinkState) : (beginCycle s).timerArmed = false := rfl
@[simp] lemma beginCycle_durableStore (s : SinkState) : (beginCycle s).durableStore = s.durableStore := rfl
@[simp] lemma beginCycle_pending (s : SinkState) : (beginCycle s).pending = s.pending := rfl
@[simp] lemma beginCycle_dispatched (s : SinkState) : (beginCycle s).dispatched = s.dispatched := rfl
@[simp] lemma beginCycle_cycleCalls (s : SinkState) : (beginCycle s).cycleCalls = s.cycleCalls + 1 := rfl
@[simp] lemma beginCycle_clock (s : SinkState) : (beginCycle s).clock = s.clock := rfl

@[simp] lemma dispatchBuffer_maxSize (s : SinkState) : (dispatchBuffer s).maxSize = s.maxSize := by
  unfold dispatchBuffer; split <;> rfl
@[simp] lemma dispatchBuffer_periodValid (s : SinkState) : (dispatchBuffer s).periodValid = s.periodValid := by
  unfold dispatchBuffer; split <;> rfl
@[simp] lemma dispatchBuffer_innerSinkPresent (s : SinkState) : (dispatchBuffer s).innerSinkPresent = s.innerSinkPresent := by
  unfold dispatchBuffer; split <;> rfl
@[simp] lemma dispatchBuffer_batchKey (s : SinkState) : (dispatchBuffer s).batchKey = s.batchKey := by
  unfold dispatchBuffer; split <;> rfl
@[simp] lemma dispatchBuffer_cont (s : SinkState) : (dispatchBuffer s).shouldCycleContinue = s.shouldCycleContinue := by
  unfold dispatchBuffer; split <;> rfl
@[simp] lemma dispatchBuffer_timerArmed (s : SinkState) : (dispatchBuffer s).timerArmed = s.timerArmed := by
  unfold dispatchBuffer; split <;> rfl
@[simp] lemma dispatchBuffer_durableStore (s : SinkState) : (dispatchBuffer s).durableStore = s.durableStore := by
  unfold dispatchBuffer; split <;> rfl
@[simp] lemma dispatchBuffer_cycleCalls (s : SinkState) : (dispatchBuffer s).cycleCalls = s.cycleCalls := by
  unfold dispatchBuffer; split <;> rfl
@[simp] lemma dispatchBuffer_clock (s : SinkState) : (dispatchBuffer s).clock = s.clock := by
  unfold dispatchBuffer; split <;> rfl
@[simp] lemma dispatchBuffer_batchedEvents (s : SinkState) : (dispatchBuffer s).batchedEvents = [] := by
  unfold dispatchBuffer; split
  · next h => exact List.length_eq_zero.mp h
  · rfl
lemma dispatchBuffer_dispatched (s : SinkState) :
    (dispatchBuffer s).dispatched
      = s.dispatched ++ (if s.batchedEvents.length = 0 then [] else [s.batchedEvents]) := by
  unfold dispatchBuffer; split <;> simp_all
lemma dispatchBuffer_pending (s : SinkState) :
    (dispatchBuffer s).pending
      = s.pending ++ (if s.batchedEvents.length = 0 then [] else [(s.batchKey, s.batchedEvents)]) := by
  unfold dispatchBuffer; split <;> simp_all

@[simp] lemma refreshKey_maxSize (s : SinkState) : (refreshKey s).maxSize = s.maxSize := rfl
@[simp] lemma refreshKey_periodValid (s : SinkState) : (refreshKey s).periodValid = s.periodValid := rfl
@[simp] lemma refreshKey_innerSinkPresent (s : SinkState) : (refreshKey s).innerSinkPresent = s.innerSinkPresent := rfl
@[simp] lemma refreshKey_batchedEvents (s : SinkState) : (refreshKey s).batchedEvents = s.batchedEvents := rfl
@[simp] lemma refreshKey_batchKey (s : SinkState) : (refreshKey s).batchKey = mkBatchKey s.clock := rfl
@[simp] lemma refreshKey_cont (s : SinkState) : (refreshKey s).shouldCycleContinue = s.shouldCycleContinue := rfl
@[simp] lemma refreshKey_timerArmed (s : SinkState) : (refreshKey s).timerArmed = s.timerArmed := rfl
@[simp] lemma refreshKey_durableStore (s : SinkState) : (refreshKey s).durableStore = s.durableStore := rfl
@[simp] lemma refreshKey_pending (s : SinkState) : (refreshKey s).pending = s.pending := rfl
@[simp] lemma refreshKey_dispatched (s : SinkState) : (refreshKey s).dispatched = s.dispatched := rfl
@[simp] lemma refreshKey_cycleCalls (s : SinkState) : (refreshKey s).cycleCalls = s.cycleCalls := rfl

@[simp] lemma armTimer_maxSize (s : SinkState) : (armTimer s).maxSize = s.maxSize := by
  unfold armTimer; split <;> rfl
@[simp] lemma armTimer_periodValid (s : SinkState) : (armTimer s).periodValid = s.periodValid := by
  unfold armTimer; split <;> rfl
@[simp] lemma armTimer_innerSinkPresent (s : SinkState) : (armTimer s).innerSinkPresent = s.innerSinkPresent := by
  unfold armTimer; split <;> rfl
@[simp] lemma armTimer_batchedEvents (s : SinkState) : (armTimer s).batchedEvents = s.batchedEvents := by
  unfold armTimer; split <;> rfl
@[simp] lemma armTimer_batchKey (s : SinkState) : (armTimer s).batchKey = s.batchKey := by
  unfold armTimer; split <;> rfl
@[simp] lemma armTimer_cont (s : SinkState) : (armTimer s).shouldCycleContinue = s.shouldCycleContinue := by
  unfold armTimer; split <;> rfl
@[simp] lemma armTimer_timerArmed (s : SinkState) : (armTimer s).timerArmed = (s.periodValid || s.timerArmed) := by
  unfold armTimer; split <;> simp_all
@[simp] lemma armTimer_durableStore (s : SinkState) : (armTimer s).durableStore = s.durableStore := by
  unfold armTimer; split <;> rfl
@[simp] lemma armTimer_pending (s : SinkState) : (armTimer s).pending = s.pending := by
  unfold armTimer; split <;> rfl
@[simp] lemma armTimer_dispatched (s : SinkState) : (armTimer s).dispatched = s.dispatched := by
  unfold armTimer; split <;> rfl
@[simp] lemma armTimer_cycleCalls (s : SinkState) : (armTimer s).cycleCalls = s.cycleCalls := by
  unfold armTimer; split <;> rfl

@[simp] lemma storeEvents_maxSize (s : SinkState) : (storeEvents s).maxSize = s.maxSize := rfl
@[simp] lemma storeEvents_periodValid (s : SinkState) : (storeEvents s).periodValid = s.periodValid := rfl
@[simp] lemma storeEvents_innerSinkPresent (s : SinkState) : (storeEvents s).innerSinkPresent = s.innerSinkPresent := rfl
@[simp] lemma storeEvents_batchedEvents (s : SinkState) : (storeEvents s).batchedEvents = s.batchedEvents := rfl
@[simp] lemma storeEvents_batchKey (s : SinkState) : (storeEvents s).batchKey = s.batchKey := rfl
@[simp] lemma storeEvents_cont (s : SinkState) : (storeEvents s).shouldCycleContinue = s.shouldCycleContinue := rfl
@[simp] lemma storeEvents_timerArmed (s : SinkState) : (storeEvents s).timerArmed = s.timerArmed := rfl
@[simp] lemma storeEvents_pending (s : SinkState) : (storeEvents s).pending = s.pending := rfl
@[simp] lemma storeEvents_dispatched (s : SinkState) : (storeEvents s).dispatched = s.dispatched := rfl
@[simp] lemma storeEvents_cycleCalls (s : SinkState) : (storeEvents s).cycleCalls = s.cycleCalls := rfl
@[simp] lemma storeEvents_clock (s : SinkState) : (storeEvents s).clock = s.clock := rfl

@[simp] lemma appendEvents_maxSize (E : List LogEvent) (s : SinkState) : (appendEvents E s).maxSize = s.maxSize := rfl
@[simp] lemma appendEvents_periodValid (E : List LogEvent) (s : SinkState) : (appendEvents E s).periodValid = s.periodValid := rfl
@[simp] lemma appendEvents_innerSinkPresent (E : List LogEvent) (s : SinkState) : (appendEvents E s).innerSinkPresent = s.innerSinkPresent := rfl
@[simp] lemma appendEvents_batchedEvents (E : List LogEvent) (s : SinkState) : (appendEvents E s).batchedEvents = s.batchedEvents ++ E := rfl
@[simp] lemma appendEvents_batchKey (E : List LogEvent) (s : SinkState) : (appendEvents E s).batchKey = s.batchKey := rfl
@[simp] lemma appendEvents_cont (E : List LogEvent) (s : SinkState) : (appendEvents E s).shouldCycleContinue = s.shouldCycleContinue := rfl
@[simp] lemma appendEvents_timerArmed (E : List LogEvent) (s : SinkState) : (appendEvents E s).timerArmed = s.timerArmed := rfl
@[simp] lemma appendEvents_durableStore (E : List LogEvent) (s : SinkState) : (appendEvents E s).durableStore = s.durableStore := rfl
@[simp] lemma appendEvents_pending (E : List LogEvent) (s : SinkState) : (appendEvents E s).pending = s.pending := rfl
@[simp] lemma appendEvents_dispatched (E : List LogEvent) (s : SinkState) : (appendEvents E s).dispatched = s.dispatched := rfl
@[simp] lemma appendEvents_cycleCalls (E : List LogEvent) (s : SinkState) : (appendEvents E s).cycleCalls = s.cycleCalls := rfl

@[simp] lemma stopCycle_maxSize (s : SinkState) : (stopCycle s).maxSize = s.maxSize := rfl
@[simp] lemma stopCycle_periodValid (s : SinkState) : (stopCycle s).periodValid = s.periodValid := rfl
@[simp] lemma stopCycle_innerSinkPresent (s : SinkState) : (stopCycle s).innerSinkPresent = s.innerSinkPresent := rfl
@[simp] lemma stopCycle_batchedEvents (s : SinkState) : (stopCycle s).batchedEvents = s.batchedEvents := rfl
@[simp] lemma stopCycle_batchKey (s : SinkState) : (stopCycle s).batchKey = s.batchKey := rfl
@[simp] lemma stopCycle_cont (s : SinkState) : (stopCycle s).shouldCycleContinue = false := rfl
@[simp] lemma stopCycle_timerArmed (s : SinkState) : (stopCycle s).timerArmed = false := rfl
@[simp] lemma stopCycle_durableStore (s : SinkState) : (stopCycle s).durableStore = s.durableStore := rfl
@[simp] lemma stopCycle_pending (s : SinkState) : (stopCycle s).pending = s.pending := rfl
@[simp] lemma stopCycle_dispatched (s : SinkState) : (stopCycle s).dispatched = s.dispatched := rfl

@[simp] lemma resolveSuccess_cont (s : SinkState) (i : Nat) :
    (resolveSuccess s i).shouldCycleContinue = s.shouldCycleContinue := by
  unfold resolveSuccess; split <;> rfl
@[simp] lemma resolveSuccess_timerArmed (s : SinkState) (i : Nat) :
    (resolveSuccess s i).timerArmed = s.timerArmed := by
  unfold resolveSuccess; split <;> rfl
@[simp] lemma resolveFailure_cont (s : SinkState) (i : Nat) :
    (resolveFailure s i).shouldCycleContinue = s.shouldCycleContinue := by
  unfold resolveFailure; split <;> rfl
@[simp] lemma resolveFailure_timerArmed (s : SinkState) (i : Nat) :
    (resolveFailure s i).timerArmed = s.timerArmed := by
  unfold resolveFailure; split <;> rfl
@[simp] lemma resolveFailure_durableStore (s : SinkState) (i : Nat) :
    (resolveFailure s i).durableStore = s.durableStore := by
  unfold resolveFailure; split <;> rfl

/-! ### Composed facts about cycleBatch -/

lemma cycleBatch_stopped (s : SinkState) (h : s.shouldCycleContinue = false) :
    cycleBatch s = beginCycle s := by
  unfold cycleBatch; simp [h]

@[simp] lemma cycleBatch_maxSize (s : SinkState) : (cycleBatch s).maxSize = s.maxSize := by
  unfold cycleBatch; split <;> simp
@[simp] lemma cycleBatch_periodValid (s : SinkState) : (cycleBatch s).periodValid = s.periodValid := by
  unfold cycleBatch; split <;> simp
@[simp] lemma cycleBatch_innerSinkPresent (s : SinkState) : (cycleBatch s).innerSinkPresent = s.innerSinkPresent := by
  unfold cycleBatch; split <;> simp
@[simp] lemma cycleBatch_cont (s : SinkState) : (cycleBatch s).shouldCycleContinue = s.shouldCycleContinue := by
  unfold cycleBatch; split <;> simp
@[simp] lemma cycleBatch_durableStore (s : SinkState) : (cycleBatch s).durableStore = s.durableStore := by
  unfold cycleBatch; split <;> simp
@[simp] lemma cycleBatch_cycleCalls (s : SinkState) : (cycleBatch s).cycleCalls = s.cycleCalls + 1 := by
  unfold cycleBatch; split <;> simp

lemma cycleBatch_run_batchedEvents (s : SinkState) (h : s.shouldCycleContinue = true) :
    (cycleBatch s).batchedEvents = [] := by
  unfold cycleBatch; simp [h]

lemma cycleBatch_run_dispatched (s : SinkState) (h : s.shouldCycleContinue = true) :
    (cycleBatch s).dispatched
      = s.dispatched ++ (if s.batchedEvents.length = 0 then [] else [s.batchedEvents]) := by
  unfold cycleBatch; simp [h, dispatchBuffer_dispatched]

lemma cycleBatch_run_pending (s : SinkState) (h : s.shouldCycleContinue = true) :
    (cycleBatch s).pending
      = s.pending ++ (if s.batchedEvents.length = 0 then [] else [(s.batchKey, s.batchedEvents)]) := by
  unfold cycleBatch; simp [h, dispatchBuffer_pending]

lemma cycleBatch_run_timerArmed (s : SinkState) (h : s.shouldCycleContinue = true) :
    (cycleBatch s).timerArmed = s.periodValid := by
  unfold cycleBatch; simp [h]

lemma cycleBatch_timerArmed_of_not_periodValid (s : SinkState) (h : s.periodValid = false) :
    (cycleBatch s).timerArmed = false := by
  unfold cycleBatch; split
  · simp
  · simp [h]

/-! ### The durable store keeps at most one entry per key -/

lemma keys_setItem (st : Store) (k : String) (v : List LogEvent) :
    (setItem st k v).map Prod.fst =
      if k ∈ st.map Prod.fst then st.map Prod.fst else st.map Prod.fst ++ [k] := by
  induction st with
  | nil => simp [setItem]
  | cons e rest ih =>
    by_cases he : e.1 = k
    · simp [setItem, he]
    · have he' : (e.1 == k) = false := by simpa using he
      simp only [setItem, he', Bool.false_eq_true, if_false, List.map_cons, ih, List.mem_cons]
      by_cases hk : k ∈ rest.map Prod.fst
      · simp [hk, Ne.symm he]
      · simp [hk, Ne.symm he]

lemma nodup_keys_setItem (st : Store) (k : String) (v : List LogEvent)
    (h : (st.map Prod.fst).Nodup) : ((setItem st k v).map Prod.fst).Nodup := by
  rw [keys_setItem]
  split
  · exact h
  · next hk => simp [List.nodup_append, h, hk]

lemma nodup_keys_removeItem (st : Store) (k : String)
    (h : (st.map Prod.fst).Nodup) : ((removeItem st k).map Prod.fst).Nodup := by
  exact h.sublist (List.Sublist.map Prod.fst (List.filter_sublist st))

lemma storeKeys_congr {a b : SinkState} (h : a.durableStore = b.durableStore) :
    storeKeys a = storeKeys b := by
  unfold storeKeys; rw [h]

lemma keysNodup_storeEvents {s : SinkState} (h : keysNodup s) : keysNodup (storeEvents s) := by
  unfold keysNodup storeKeys at *
  cases hs : s.durableStore with
  | none => simp [storeEvents, hs]
  | some st =>
    have h' : (st.map Prod.fst).Nodup := by rw [hs] at h; exact h
    simp [storeEvents, hs]
    exact nodup_keys_setItem st _ _ h'

lemma keysNodup_cycleBatch {s : SinkState} (h : keysNodup s) : keysNodup (cycleBatch s) := by
  unfold keysNodup at *
  rwa [storeKeys_congr (cycleBatch_durableStore s)]

lemma keysNodup_appendEvents {s : SinkState} (E : List LogEvent) (h : keysNodup s) :
    keysNodup (appendEvents E s) := by
  unfold keysNodup at *
  rwa [storeKeys_congr (appendEvents_durableStore E s)]

lemma keysNodup_emitGo (m : Nat) (E : List LogEvent) :
    ∀ (fuel c : Nat) (s : SinkState), keysNodup s → keysNodup (emitGo m E fuel c s)
  | 0, _, s, h => h
  | fuel + 1, c, s, h => by
    unfold emitGo
    split
    · exact keysNodup_emitGo m E fuel (c + m) _
        (keysNodup_storeEvents (keysNodup_appendEvents _ (keysNodup_cycleBatch h)))
    · exact h

lemma keysNodup_emit {s : SinkState} (E : List LogEvent) (h : keysNodup s) :
    keysNodup (emit E s).2 := by
  unfold emit
  split
  · exact keysNodup_storeEvents (keysNodup_appendEvents _ h)
  · exact keysNodup_emitGo _ _ _ _ _
      (keysNodup_storeEvents (keysNodup_appendEvents _ h))

lemma keysNodup_stopCycle {s : SinkState} (h : keysNodup s) : keysNodup (stopCycle s) := by
  unfold keysNodup at *
  rwa [storeKeys_congr (stopCycle_durableStore s)]

lemma keysNodup_resolveSuccess {s : SinkState} (i : Nat) (h : keysNodup s) :
    keysNodup (resolveSuccess s i) := by
  unfold resolveSuccess
  split
  · exact h
  · unfold keysNodup storeKeys at *
    cases hs : s.durableStore with
    | none => simp [hs]
    | some st =>
      have h' : (st.map Prod.fst).Nodup := by rw [hs] at h; exact h
      simp [hs]
      exact nodup_keys_removeItem st _ h'

lemma keysNodup_resolveFailure {s : SinkState} (i : Nat) (h : keysNodup s) :
    keysNodup (resolveFailure s i) := by
  unfold keysNodup at *
  rwa [storeKeys_congr (resolveFailure_durableStore s i)]

/-! ### Arithmetic of the forced-cycle count -/

lemma ceil_div_step (m n : Nat) (hm : 1 ≤ m) (hn : 0 < n) :
    (n + m - 1) / m = (n - m + m - 1) / m + 1 := by
  rcases le_or_lt n m with h | h
  · have e1 : n + m - 1 = (n - 1) + m := by omega
    have e2 : n - m + m - 1 = m - 1 := by omega
    rw [e1, e2, Nat.add_div_right _ (show 0 < m by omega),
        Nat.div_eq_of_lt (show n - 1 < m by omega),
        Nat.div_eq_of_lt (show m - 1 < m by omega)]
  · have e1 : n + m - 1 = (n - m + m - 1) + m := by omega
    rw [e1, Nat.add_div_right _ (show 0 < m by omega)]

/-! ### Behaviour of the emit loop while the engine is running -/

lemma emitGo_spec (m : Nat) (hm : 1 ≤ m) (E : List LogEvent) :
    ∀ (fuel c : Nat) (s : SinkState),
      s.shouldCycleContinue = true → s.batchedEvents.length ≤ m → E.length - c ≤ fuel →
      ∃ nb : List (List LogEvent),
        (emitGo m E fuel c s).dispatched = s.dispatched ++ nb ∧
        (∀ b ∈ nb, b.length ≤ m) ∧
        nb.flatten ++ (emitGo m E fuel c s).batchedEvents = s.batchedEvents ++ E.drop c ∧
        (emitGo m E fuel c s).cycleCalls = s.cycleCalls + (E.length - c + m - 1) / m ∧
        (emitGo m E fuel c s).batchedEvents.length ≤ m ∧
        (emitGo m E fuel c s).shouldCycleContinue = true := by
  intro fuel
  induction fuel with
  | zero =>
    intro c s hcont hlen hfuel
    have hle : E.length ≤ c := by omega
    have hz : (E.length - c + m - 1) / m = 0 := Nat.div_eq_of_lt (by omega)
    exact ⟨[], by simp [emitGo], by simp, by simp [emitGo, List.drop_eq_nil_of_le hle],
      by simp [emitGo, hz], by simpa [emitGo] using hlen, by simpa [emitGo] using hcont⟩
  | succ fuel ih =>
    intro c s hcont hlen hfuel
    by_cases hc : c < E.length
    · have hunf : emitGo m E (fuel + 1) c s
          = emitGo m E fuel (c + m) (storeEvents (appendEvents ((E.drop c).take m) (cycleBatch s))) := by
        simp only [emitGo]; rw [if_pos hc]
      set s2 := storeEvents (appendEvents ((E.drop c).take m) (cycleBatch s)) with hs2
      have hbuf2 : s2.batchedEvents = (E.drop c).take m := by
        simp [hs2, cycleBatch_run_batchedEvents s hcont]
      have hcont2 : s2.shouldCycleContinue = true := by simp [hs2, hcont]
      have hlen2 : s2.batchedEvents.length ≤ m := by
        rw [hbuf2]; exact List.length_take_le _ _
      have hfuel2 : E.length - (c + m) ≤ fuel := by omega
      obtain ⟨nb, hd, hb, hj, hcc, hlenr, hcontr⟩ := ih (c + m) s2 hcont2 hlen2 hfuel2
      have hdisp2 : s2.dispatched
          = s.dispatched ++ (if s.batchedEvents.length = 0 then [] else [s.batchedEvents]) := by
        simp [hs2, cycleBatch_run_dispatched s hcont]
      refine ⟨(if s.batchedEvents.length = 0 then [] else [s.batchedEvents]) ++ nb,
        ?_, ?_, ?_, ?_, by rw [hunf]; exact hlenr, by rw [hunf]; exact hcontr⟩
      · rw [hunf, hd, hdisp2, List.append_assoc]
      · intro b hbmem
        rcases List.mem_append.mp hbmem with hmem | hmem
        · by_cases hbe : s.batchedEvents.length = 0
          · simp [hbe] at hmem
          · simp [hbe] at hmem
            rw [hmem]; exact hlen
        · exact hb b hmem
      · rw [hunf, List.flatten_append, List.append_assoc, hj, hbuf2]
        have hdd : E.drop (c + m) = (E.drop c).drop m := by
          rw [List.drop_drop, Nat.add_comm]
        rw [hdd, List.take_append_drop]
        by_cases hbe : s.batchedEvents.length = 0
        · simp [hbe, List.length_eq_zero.mp hbe]
        · simp [hbe]
      · have hcc2 : s2.cycleCalls = s.cycleCalls + 1 := by simp [hs2]
        have hstep : (E.length - c + m - 1) / m = (E.length - (c + m) + m - 1) / m + 1 := by
          have h1 := ceil_div_step m (E.length - c) hm (by omega)
          have h2 : E.length - c - m = E.length - (c + m) := by omega
          rw [h2] at h1; exact h1
        rw [hunf, hcc, hcc2, hstep]
        generalize (E.length - (c + m) + m - 1) / m = D
        omega
    · have hunf : emitGo m E (fuel + 1) c s = s := by
        simp only [emitGo]; rw [if_neg hc]
      have hle : E.length ≤ c := by omega
      have hz : (E.length - c + m - 1) / m = 0 := Nat.div_eq_of_lt (by omega)
      exact ⟨[], by simp [hunf], by simp, by simp [hunf, List.drop_eq_nil_of_le hle],
        by simp [hunf, hz], by rw [hunf]; exact hlen, by rw [hunf]; exact hcont⟩

/-! ### Behaviour of the emit loop after stopCycle -/

lemma emitGo_stopped (m : Nat) (E : List LogEvent) :
    ∀ (fuel c : Nat) (s : SinkState),
      s.shouldCycleContinue = false → E.length - c ≤ fuel → 1 ≤ m →
      (emitGo m E fuel c s).batchedEvents = s.batchedEvents ++ E.drop c ∧
      (emitGo m E fuel c s).dispatched = s.dispatched ∧
      (emitGo m E fuel c s).pending = s.pending ∧
      (emitGo m E fuel c s).batchKey = s.batchKey ∧
      (emitGo m E fuel c s).shouldCycleContinue = false ∧
      (emitGo m E fuel c s).timerArmed = (if c < E.length then false else s.timerArmed) := by
  intro fuel
  induction fuel with
  | zero =>
    intro c s hstop hfuel hm
    have hle : E.length ≤ c := by omega
    have hnc : ¬ c < E.length := by omega
    refine ⟨by simp [emitGo, List.drop_eq_nil_of_le hle], by simp [emitGo],
      by simp [emitGo], by simp [emitGo], by simpa [emitGo] using hstop, ?_⟩
    simp [emitGo, hnc]
  | succ fuel ih =>
    intro c s hstop hfuel hm
    by_cases hc : c < E.length
    · have hunf : emitGo m E (fuel + 1) c s
          = emitGo m E fuel (c + m) (storeEvents (appendEvents ((E.drop c).take m) (cycleBatch s))) := by
        simp only [emitGo]; rw [if_pos hc]
      set s2 := storeEvents (appendEvents ((E.drop c).take m) (cycleBatch s)) with hs2
      have hcb : cycleBatch s = beginCycle s := cycleBatch_stopped s hstop
      have hstop2 : s2.shouldCycleContinue = false := by simp [hs2, hcb, hstop]
      have hfuel2 : E.length - (c + m) ≤ fuel := by omega
      obtain ⟨hb2, hd2, hp2, hk2, hc2, ht2⟩ := ih (c + m) s2 hstop2 hfuel2 hm
      have hbuf2 : s2.batchedEvents = s.batchedEvents ++ (E.drop c).take m := by
        simp [hs2, hcb]
      have hdd : E.drop (c + m) = (E.drop c).drop m := by
        rw [List.drop_drop, Nat.add_comm]
      refine ⟨?_, ?_, ?_, ?_, ?_, ?_⟩
      · rw [hunf, hb2, hbuf2, List.append_assoc, hdd, List.take_append_drop]
      · rw [hunf, hd2]; simp [hs2, hcb]
      · rw [hunf, hp2]; simp [hs2, hcb]
      · rw [hunf, hk2]; simp [hs2, hcb]
      · rw [hunf]; exact hc2
      · rw [hunf, ht2]
        have ht2' : s2.timerArmed = false := by simp [hs2, hcb]
        rw [ht2', if_pos hc]
        split <;> rfl
    · have hunf : emitGo m E (fuel + 1) c s = s := by
        simp only [emitGo]; rw [if_neg hc]
      have hle : E.length ≤ c := by omega
      refine ⟨by simp [hunf, List.drop_eq_nil_of_le hle], by simp [hunf], by simp [hunf],
        by simp [hunf], by rw [hunf]; exact hstop, by simp [hunf, hc]⟩

/-! ### Rehydration facts -/

lemma reviveEvent_eq (e : LogEvent) : reviveEvent e = e := by
  cases e with
  | mk mt p => cases mt; rfl

lemma map_reviveEvent (l : List LogEvent) : l.map reviveEvent = l := by
  induction l with
  | nil => rfl
  | cons h t ih => simp [reviveEvent_eq, ih]

lemma getItem_cons_self (e : String × List LogEvent) (rest : Store) :
    getItem (e :: rest) e.1 = some e.2 := by
  simp [getItem, List.find?]

lemma removeItem_not_mem : ∀ (st : Store) (k : String),
    k ∉ st.map Prod.fst → removeItem st k = st
  | [], _, _ => rfl
  | e :: rest, k, h => by
    simp only [List.map_cons, List.mem_cons, not_or] at h
    obtain ⟨hkne, hrest⟩ := h
    have hne : e.1 ≠ k := fun hx => hkne hx.symm
    simp only [removeItem, List.filter_cons]
    have : (e.1 != k) = true := by simpa using hne
    rw [this]
    simp only [if_true]
    have ih := removeItem_not_mem rest k hrest
    unfold removeItem at ih
    rw [ih]

lemma removeItem_cons_self (e : String × List LogEvent) (rest : Store)
    (h : e.1 ∉ rest.map Prod.fst) : removeItem (e :: rest) e.1 = rest := by
  simp only [removeItem, List.filter_cons]
  have : (e.1 != e.1) = false := by simp
  rw [this]
  simp only [Bool.false_eq_true, if_false]
  exact removeItem_not_mem rest e.1 h

lemma rehydrateLoop_spec : ∀ (st : Store) (acc : List LogEvent) (s : SinkState),
    s.durableStore = some st →
    (∀ e ∈ st, matchesNamespace e.1 = true) →
    (st.map Prod.fst).Nodup →
    (rehydrateLoop (st.map Prod.fst) acc s).1 = acc ++ (st.map Prod.snd).flatten ∧
    (rehydrateLoop (st.map Prod.fst) acc s).2 = { s with durableStore := some [] }
  | [], acc, s, hs, _, _ => by
    refine ⟨by simp [rehydrateLoop], ?_⟩
    simp only [List.map_nil, rehydrateLoop]
    rw [← hs]
  | e :: rest, acc, s, hs, hpre, hnd => by
    have hmatch : matchesNamespace e.1 = true := hpre e (by simp)
    have hnd' := hnd
    rw [List.map_cons, List.nodup_cons] at hnd'
    obtain ⟨hnotmem, hndrest⟩ := hnd'
    have hget : getItem (e :: rest) e.1 = some e.2 := getItem_cons_self e rest
    have hrem : removeItem (e :: rest) e.1 = rest := removeItem_cons_self e rest hnotmem
    have hstep : rehydrateLoop ((e :: rest).map Prod.fst) acc s
        = rehydrateLoop (rest.map Prod.fst) (acc ++ e.2)
            { s with durableStore := some rest } := by
      simp only [List.map_cons, rehydrateLoop, hmatch, if_true, hs, hget, hrem,
        Option.getD_some, map_reviveEvent]
    have ih := rehydrateLoop_spec rest (acc ++ e.2) { s with durableStore := some rest }
      rfl (fun x hx => hpre x (by simp [hx])) hndrest
    refine ⟨?_, ?_⟩
    · rw [hstep, ih.1]
      simp
    · rw [hstep, ih.2]

lemma keysNodup_rehydrateLoop : ∀ (keys : List String) (acc : List LogEvent) (s : SinkState),
    keysNodup s → keysNodup (rehydrateLoop keys acc s).2
  | [], _, _, h => h
  | k :: rest, acc, s, h => by
    unfold rehydrateLoop
    split
    · split
      · next st' heq =>
        apply keysNodup_rehydrateLoop
        unfold keysNodup storeKeys at *
        rw [heq] at h
        simpa using nodup_keys_removeItem st' k h
      · exact keysNodup_rehydrateLoop rest acc s h
    · exact keysNodup_rehydrateLoop rest acc s h

lemma keysNodup_construct {sink : Bool} {m : Nat} {p : Bool} {store : Option Store} {c0 : Nat}
    (h : keysNodup (initState sink m p store c0)) :
    keysNodup (construct sink m p store c0) := by
  unfold construct
  split
  · exact keysNodup_cycleBatch h
  · exact keysNodup_emit _ (keysNodup_rehydrateLoop _ _ _ (keysNodup_cycleBatch h))

/-! ### Flags after stopCycle are preserved by every transition -/

lemma emitGo_flags_stopped (m : Nat) (E : List LogEvent) :
    ∀ (fuel c : Nat) (s : SinkState),
      s.shouldCycleContinue = false → s.timerArmed = false →
      (emitGo m E fuel c s).shouldCycleContinue = false ∧
      (emitGo m E fuel c s).timerArmed = false
  | 0, _, _, h1, h2 => ⟨h1, h2⟩
  | fuel + 1, c, s, h1, h2 => by
    unfold emitGo
    split
    · exact emitGo_flags_stopped m E fuel (c + m) _
        (by simp [h1]) (by simp [cycleBatch_stopped _ h1])
    · exact ⟨h1, h2⟩

lemma halted_emit {s : SinkState} (E : List LogEvent) (h : Halted s) : Halted (emitState E s) := by
  obtain ⟨h1, h2⟩ := h
  unfold emitState emit
  split
  · exact ⟨by simp [h1], by simp [h2]⟩
  · exact emitGo_flags_stopped _ _ _ _ _ (by simp [h1]) (by simp [h2])

lemma halted_cycleBatch {s : SinkState} (h : Halted s) : Halted (cycleBatch s) := by
  obtain ⟨h1, h2⟩ := h
  rw [cycleBatch_stopped s h1]
  exact ⟨by simp [h1], by simp⟩

lemma halted_step {s t : SinkState} (h : Halted s) (hst : Step s t) : Halted t := by
  cases hst with
  | emitEv E s => exact halted_emit E h
  | flushEv s => exact halted_cycleBatch h
  | stopEv s => exact ⟨rfl, rfl⟩
  | timerFire s h' => exact absurd h' (by simp [h.2])
  | resolveOk s i => exact ⟨by simp [h.1], by simp [h.2]⟩
  | resolveFail s i h' => exact ⟨by simp [h.1], by simp [h.2]⟩

lemma halted_steps {s t : SinkState} (h : Halted s) (hst : Steps s t) : Halted t := by
  induction hst with
  | refl => exact h
  | tail _ hstep ih => exact halted_step ih hstep

/-! ### Key uniqueness is preserved by every transition -/

lemma keysNodup_step {s t : SinkState} (h : keysNodup s) (hst : Step s t) : keysNodup t := by
  cases hst with
  | emitEv E s => exact keysNodup_emit E h
  | flushEv s => exact keysNodup_cycleBatch h
  | stopEv s => exact keysNodup_stopCycle h
  | timerFire s h' => exact keysNodup_cycleBatch h
  | resolveOk s i => exact keysNodup_resolveSuccess i h
  | resolveFail s i h' => exact keysNodup_resolveFailure i h

lemma keysNodup_steps {s t : SinkState} (h : keysNodup s) (hst : Steps s t) : keysNodup t := by
  induction hst with
  | refl => exact h
  | tail _ hstep ih => exact keysNodup_step ih hstep

/-! ## Claim theorems -/

/-- C6: emit returns its input list unchanged, whatever the input length, and
is a total function (no error path).  The positivity hypothesis records that
for maxSize = 0 the source's while loop would never return at all. -/
theorem emit_returns_input (E : List LogEvent) (s : SinkState) (_hm : 1 ≤ s.maxSize) :
    (emit E s).1 = E := by
  unfold emit; split <;> rfl

/-- Witness for C6 at a concrete oversized burst. -/
theorem emit_returns_input_witness :
    1 ≤ sDemo.maxSize ∧
    (emit [ev 1, ev 2, ev 3, ev 4, ev 5] sDemo).1 = [ev 1, ev 2, ev 3, ev 4, ev 5] :=
  ⟨by decide, emit_returns_input [ev 1, ev 2, ev 3, ev 4, ev 5] sDemo (by decide)⟩

/-- C7: flush forces exactly one cycle (its state component is cycleBatch of
the current state, one more ghost cycle) and returns flushCore's signal, which
resolves with the downstream sink's flush outcome when a sink is configured
and is the immediately resolved signal otherwise. -/
theorem flush_forces_cycle_and_propagates (s : SinkState) (o : Bool) :
    (flush s).2 = cycleBatch s ∧
    (flush s).2.cycleCalls = s.cycleCalls + 1 ∧
    (flush s).1 = flushCore (cycleBatch s) ∧
    FlushPromise.outcome o (flush s).1 = (if s.innerSinkPresent = true then o else true) ∧
    (s.innerSinkPresent = false → (flush s).1 = FlushPromise.immediate) := by
  refine ⟨rfl, cycleBatch_cycleCalls s, rfl, ?_, ?_⟩
  · show FlushPromise.outcome o (flushCore (cycleBatch s)) = _
    unfold flushCore
    rw [cycleBatch_innerSinkPresent]
    by_cases hi : s.innerSinkPresent = true
    · simp [hi, FlushPromise.outcome]
    · have hif : s.innerSinkPresent = false := by simpa using hi
      simp [hif, FlushPromise.outcome]
  · intro h
    show flushCore (cycleBatch s) = _
    unfold flushCore
    rw [cycleBatch_innerSinkPresent, h]
    simp

/-- Witness for C7 at the sink-less engine with a rejected downstream outcome. -/
theorem flush_forces_cycle_witness :
    (flush sNoSink).2 = cycleBatch sNoSink ∧
    (flush sNoSink).2.cycleCalls = sNoSink.cycleCalls + 1 ∧
    (flush sNoSink).1 = flushCore (cycleBatch sNoSink) ∧
    FlushPromise.outcome false (flush sNoSink).1
      = (if sNoSink.innerSinkPresent = true then false else true) ∧
    (sNoSink.innerSinkPresent = false → (flush sNoSink).1 = FlushPromise.immediate) :=
  flush_forces_cycle_and_propagates sNoSink false

/-- C2: when the dispatch of snapshot (k, evs) fails, the catch handler
re-prepends exactly those events, in order, to the front of whatever buffer is
active at resolution time, removes the dispatch from the pending set, and
leaves the durable store, hence the entry stored under the dispatched key,
untouched. -/
theorem failed_dispatch_requeues_and_keeps_entry (s : SinkState) (i : Nat)
    (k : String) (evs : List LogEvent) (h : s.pending[i]? = some (k, evs)) :
    (resolveFailure s i).batchedEvents = evs ++ s.batchedEvents ∧
    (resolveFailure s i).durableStore = s.durableStore ∧
    (resolveFailure s i).pending = s.pending.eraseIdx i := by
  unfold resolveFailure
  rw [h]
  exact ⟨rfl, rfl, rfl⟩

/-- Witness for C2, failing the single pending dispatch of sC5. -/
theorem failed_dispatch_witness :
    sC5.pending[0]? = some (mkBatchKey 0, [ev 1]) ∧
    ((resolveFailure sC5 0).batchedEvents = [ev 1] ++ sC5.batchedEvents ∧
     (resolveFailure sC5 0).durableStore = sC5.durableStore ∧
     (resolveFailure sC5 0).pending = sC5.pending.eraseIdx 0) :=
  ⟨by decide, failed_dispatch_requeues_and_keeps_entry sC5 0 (mkBatchKey 0) [ev 1] (by decide)⟩

/-- C8: stopCycle is idempotent, and from a stopped engine every state
reachable by any sequence of transitions keeps the stop flag set and the timer
unarmed; in particular the timerFire transition, which requires an armed timer,
can never occur after stopCycle. -/
theorem stop_idempotent_and_no_timer_after (s t : SinkState) :
    stopCycle (stopCycle s) = stopCycle s ∧
    (Steps (stopCycle s) t → t.shouldCycleContinue = false ∧ t.timerArmed = false) :=
  ⟨rfl, fun hsteps => halted_steps ⟨rfl, rfl⟩ hsteps⟩

/-- Witness for C8 with the empty transition sequence. -/
theorem stop_idempotent_witness :
    stopCycle (stopCycle sDemo) = stopCycle sDemo ∧
    ((stopCycle sDemo).shouldCycleContinue = false ∧ (stopCycle sDemo).timerArmed = false) :=
  ⟨(stop_idempotent_and_no_timer_after sDemo (stopCycle sDemo)).1,
   (stop_idempotent_and_no_timer_after sDemo (stopCycle sDemo)).2 Relation.ReflTransGen.refl⟩

/-- C4 (amended): after stopCycle a cycle invocation only clears the timer and
returns before the dispatch block (terminal state of the timer: no rearm, no
dispatch, no key refresh); the buffer keeps its events, and flush does not
drain them to the downstream sink: it forces that no-op cycle and merely
returns the downstream flush signal. -/
theorem cycle_after_stop_terminal (s : SinkState) (h : s.shouldCycleContinue = false) :
    cycleBatch s = beginCycle s ∧
    (flush s).2.batchedEvents = s.batchedEvents ∧
    (flush s).2.dispatched = s.dispatched ∧
    (flush s).2.timerArmed = false ∧
    (flush s).1 = flushCore s := by
  have hcb := cycleBatch_stopped s h
  refine ⟨hcb, ?_, ?_, ?_, ?_⟩
  · show (cycleBatch s).batchedEvents = _
    rw [hcb]; simp
  · show (cycleBatch s).dispatched = _
    rw [hcb]; simp
  · show (cycleBatch s).timerArmed = _
    rw [hcb]; simp
  · show flushCore (cycleBatch s) = _
    unfold flushCore
    rw [cycleBatch_innerSinkPresent]

/-- C4, counterexample to the claim as stated: a stopped engine holding one
buffered event; calling flush hands nothing to the downstream sink and the
event stays in the buffer, so the buffer cannot be drained by flush after
stop. -/
theorem flush_after_stop_does_not_drain :
    sStopped.shouldCycleContinue = false ∧
    sStopped.batchedEvents = [ev 1] ∧
    (flush sStopped).2.batchedEvents = [ev 1] ∧
    (flush sStopped).2.dispatched = [] := by decide

/-- Witness for C4's amended theorem at the stopped engine. -/
theorem cycle_after_stop_terminal_witness :
    cycleBatch sStopped = beginCycle sStopped ∧
    (flush sStopped).2.batchedEvents = sStopped.batchedEvents ∧
    (flush sStopped).2.dispatched = sStopped.dispatched ∧
    (flush sStopped).2.timerArmed = false ∧
    (flush sStopped).1 = flushCore sStopped :=
  cycle_after_stop_terminal sStopped (by decide)

/-- C10: after stopCycle, an emit call whose events exceed maxSize forces
cycles that are no-ops beyond clearing the timer: nothing is handed to
emitCore, the buffer is never reset, the batch key is not refreshed, and the
whole input accumulates in the one active buffer, whose length then exceeds
maxSize. -/
theorem emit_after_stop_accumulates (s : SinkState) (E : List LogEvent)
    (hstop : s.shouldCycleContinue = false) (hm : 1 ≤ s.maxSize)
    (hov : s.maxSize < E.length) :
    (emit E s).2.batchedEvents = s.batchedEvents ++ E ∧
    (emit E s).2.dispatched = s.dispatched ∧
    (emit E s).2.pending = s.pending ∧
    (emit E s).2.batchKey = s.batchKey ∧
    (emit E s).2.timerArmed = false ∧
    s.maxSize < (emit E s).2.batchedEvents.length := by
  have hno : ¬ (s.batchedEvents.length + E.length ≤ s.maxSize) := by omega
  unfold emit
  rw [if_neg hno]
  dsimp only
  set c := s.maxSize - s.batchedEvents.length with hc
  set s1 := storeEvents (appendEvents (E.take c) s) with hs1
  have h1 : s1.shouldCycleContinue = false := by simp [hs1, hstop]
  have hfuel : E.length - c ≤ E.length + 1 := by omega
  obtain ⟨hb, hd, hp, hk, hco, ht⟩ := emitGo_stopped s.maxSize E (E.length + 1) c s1 h1 hfuel hm
  have hcE : c < E.length := by omega
  have hbuf1 : s1.batchedEvents = s.batchedEvents ++ E.take c := by simp [hs1]
  have hbufeq : (emitGo s.maxSize E (E.length + 1) c s1).batchedEvents
      = s.batchedEvents ++ E := by
    rw [hb, hbuf1, List.append_assoc, List.take_append_drop]
  refine ⟨hbufeq, ?_, ?_, ?_, ?_, ?_⟩
  · rw [hd]; simp [hs1]
  · rw [hp]; simp [hs1]
  · rw [hk]; simp [hs1]
  · rw [ht, if_pos hcE]
  · rw [hbufeq]
    simp only [List.length_append]
    omega

/-- Witness for C10: five events into the stopped engine with maxSize 3. -/
theorem emit_after_stop_witness :
    (stopCycle sDemo).shouldCycleContinue = false ∧ 1 ≤ (stopCycle sDemo).maxSize ∧
    (stopCycle sDemo).maxSize < ([ev 1, ev 2, ev 3, ev 4, ev 5] : List LogEvent).length ∧
    ((emit [ev 1, ev 2, ev 3, ev 4, ev 5] (stopCycle sDemo)).2.batchedEvents
        = (stopCycle sDemo).batchedEvents ++ [ev 1, ev 2, ev 3, ev 4, ev 5] ∧
     (emit [ev 1, ev 2, ev 3, ev 4, ev 5] (stopCycle sDemo)).2.dispatched
        = (stopCycle sDemo).dispatched ∧
     (emit [ev 1, ev 2, ev 3, ev 4, ev 5] (stopCycle sDemo)).2.pending
        = (stopCycle sDemo).pending ∧
     (emit [ev 1, ev 2, ev 3, ev 4, ev 5] (stopCycle sDemo)).2.batchKey
        = (stopCycle sDemo).batchKey ∧
     (emit [ev 1, ev 2, ev 3, ev 4, ev 5] (stopCycle sDemo)).2.timerArmed = false ∧
     (stopCycle sDemo).maxSize
        < (emit [ev 1, ev 2, ev 3, ev 4, ev 5] (stopCycle sDemo)).2.batchedEvents.length) :=
  ⟨by decide, by decide, by decide,
   emit_after_stop_accumulates (stopCycle sDemo) [ev 1, ev 2, ev 3, ev 4, ev 5]
     (by decide) (by decide) (by decide)⟩

/-- C1 (amended): for an overflowing emit call on a running engine (buffer at
most maxSize beforehand), every batch handed downstream during the call has at
most maxSize events, the concatenation of those batches followed by the events
left in the buffer equals the prior buffer contents followed by the input in
original order (no loss, no reorder, no duplication), and the number of cycles
forced by the call is ceil(overflow / maxSize) with
overflow = buffer.length + events.length - maxSize. -/
theorem emit_overflow_spec (s : SinkState) (E : List LogEvent)
    (hcont : s.shouldCycleContinue = true) (hm : 1 ≤ s.maxSize)
    (hb : s.batchedEvents.length ≤ s.maxSize)
    (hov : s.maxSize < s.batchedEvents.length + E.length) :
    ∃ nb : List (List LogEvent),
      (emit E s).2.dispatched = s.dispatched ++ nb ∧
      (∀ b ∈ nb, b.length ≤ s.maxSize) ∧
      nb.flatten ++ (emit E s).2.batchedEvents = s.batchedEvents ++ E ∧
      (emit E s).2.cycleCalls
        = s.cycleCalls
          + (s.batchedEvents.length + E.length - s.maxSize + s.maxSize - 1) / s.maxSize := by
  have hno : ¬ (s.batchedEvents.length + E.length ≤ s.maxSize) := by omega
  unfold emit
  rw [if_neg hno]
  dsimp only
  set c := s.maxSize - s.batchedEvents.length with hc
  set s1 := storeEvents (appendEvents (E.take c) s) with hs1
  have hcont1 : s1.shouldCycleContinue = true := by simp [hs1, hcont]
  have hbuf1 : s1.batchedEvents = s.batchedEvents ++ E.take c := by simp [hs1]
  have hlen1 : s1.batchedEvents.length ≤ s.maxSize := by
    rw [hbuf1]
    simp only [List.length_append, List.length_take]
    omega
  have hfuel : E.length - c ≤ E.length + 1 := by omega
  obtain ⟨nb, hd, hbd, hj, hcc, _, _⟩ :=
    emitGo_spec s.maxSize hm E (E.length + 1) c s1 hcont1 hlen1 hfuel
  refine ⟨nb, ?_, hbd, ?_, ?_⟩
  · rw [hd]; simp [hs1]
  · rw [hj, hbuf1, List.append_assoc, List.take_append_drop]
  · rw [hcc]
    have hnum : E.length - c = s.batchedEvents.length + E.length - s.maxSize := by omega
    rw [hnum]
    simp [hs1]

/-- Witness for C1's amended theorem: five events into the fresh maxSize-3
engine. -/
theorem emit_overflow_spec_witness :
    sDemo.shouldCycleContinue = true ∧ 1 ≤ sDemo.maxSize ∧
    sDemo.batchedEvents.length ≤ sDemo.maxSize ∧
    sDemo.maxSize
      < sDemo.batchedEvents.length + ([ev 1, ev 2, ev 3, ev 4, ev 5] : List LogEvent).length ∧
    (∃ nb : List (List LogEvent),
      (emit [ev 1, ev 2, ev 3, ev 4, ev 5] sDemo).2.dispatched = sDemo.dispatched ++ nb ∧
      (∀ b ∈ nb, b.length ≤ sDemo.maxSize) ∧
      nb.flatten ++ (emit [ev 1, ev 2, ev 3, ev 4, ev 5] sDemo).2.batchedEvents
        = sDemo.batchedEvents ++ [ev 1, ev 2, ev 3, ev 4, ev 5] ∧
      (emit [ev 1, ev 2, ev 3, ev 4, ev 5] sDemo).2.cycleCalls
        = sDemo.cycleCalls
          + (sDemo.batchedEvents.length
              + ([ev 1, ev 2, ev 3, ev 4, ev 5] : List LogEvent).length
              - sDemo.maxSize + sDemo.maxSize - 1) / sDemo.maxSize) :=
  ⟨by decide, by decide, by decide, by decide,
   emit_overflow_spec sDemo [ev 1, ev 2, ev 3, ev 4, ev 5]
     (by decide) (by decide) (by decide) (by decide)⟩

/-- C1, counterexample to the claim as stated: the demo engine satisfies the
claim's precondition (empty buffer, overflow), nothing was dispatched before
the call, yet the concatenation of all batches dispatched by the call is
[e1,e2,e3], not the whole input: the final slice stays undispatched in the
buffer. -/
theorem emit_overflow_concat_counterexample :
    sDemo.batchedEvents.length ≤ sDemo.maxSize ∧
    sDemo.maxSize
      < sDemo.batchedEvents.length + ([ev 1, ev 2, ev 3, ev 4, ev 5] : List LogEvent).length ∧
    sDemo.dispatched = [] ∧
    ((emit [ev 1, ev 2, ev 3, ev 4, ev 5] sDemo).2.dispatched).flatten
      ≠ [ev 1, ev 2, ev 3, ev 4, ev 5] := by decide

/-- C9, counterexample to the claim as stated: with maxSize 3 and the period
disabled, emit([e1,e2,e3,e4,e5]) on the fresh engine forces exactly one cycle,
not two; the scenario's second cycle comes from the explicit flush call. -/
theorem burst_scenario_counterexample :
    (emit [ev 1, ev 2, ev 3, ev 4, ev 5] sDemo).2.cycleCalls - sDemo.cycleCalls = 1 ∧
    (emit [ev 1, ev 2, ev 3, ev 4, ev 5] sDemo).2.cycleCalls - sDemo.cycleCalls ≠ 2 := by decide

/-- C9 (amended): in the maxSize-3, period-disabled scenario, the emit call
forces one cycle and dispatches [e1,e2,e3], leaving [e4,e5] in the buffer; the
explicit flush then forces the second cycle of the scenario and dispatches
[e4,e5]. -/
theorem burst_scenario_amended :
    (emit [ev 1, ev 2, ev 3, ev 4, ev 5] sDemo).2.cycleCalls - sDemo.cycleCalls = 1 ∧
    (emit [ev 1, ev 2, ev 3, ev 4, ev 5] sDemo).2.dispatched = [[ev 1, ev 2, ev 3]] ∧
    (emit [ev 1, ev 2, ev 3, ev 4, ev 5] sDemo).2.batchedEvents = [ev 4, ev 5] ∧
    (flush (emit [ev 1, ev 2, ev 3, ev 4, ev 5] sDemo).2).2.dispatched
      = [[ev 1, ev 2, ev 3], [ev 4, ev 5]] ∧
    (flush (emit [ev 1, ev 2, ev 3, ev 4, ev 5] sDemo).2).2.cycleCalls - sDemo.cycleCalls = 2 := by
  decide

/-- C5 (amended): the durable store always holds at most one entry per
BatchKey: this holds after construction from a pre-populated store with unique
keys, and is preserved by every transition of the engine.  The claim's second
half fails: after a failed dispatch the entry under the stale key persists
outside any dispatch window (see the counterexample). -/
theorem store_at_most_one_entry_per_key :
    (∀ (sink : Bool) (m : Nat) (p : Bool) (st : Store) (c0 : Nat),
        (st.map Prod.fst).Nodup → keysNodup (construct sink m p (some st) c0)) ∧
    (∀ s t : SinkState, keysNodup s → Steps s t → keysNodup t) := by
  constructor
  · intro sink m p st c0 h
    apply keysNodup_construct
    exact h
  · intro s t h hst
    exact keysNodup_steps h hst

/-- Witness for C5's amended theorem: the two-entry store and the post-failure
state. -/
theorem store_at_most_one_entry_witness :
    keysNodup (construct true 1 false (some stC3) 0) ∧ keysNodup sFail :=
  ⟨store_at_most_one_entry_per_key.1 true 1 false stC3 0 (by decide),
   store_at_most_one_entry_per_key.2 sFail sFail
     (by show (storeKeys sFail).Nodup; decide) Relation.ReflTransGen.refl⟩

/-- C5, counterexample to the "stale entries exist only during the brief
dispatch window" half of the claim: in sFail the failed dispatch has been fully
resolved (nothing is pending), yet the store still holds the entry under the
dispatched key, which no longer matches the active buffer's key. -/
theorem stale_entry_persists_after_failure :
    sFail.pending = [] ∧
    sFail.durableStore = some [(mkBatchKey 0, [ev 1])] ∧
    sFail.batchKey = mkBatchKey 1 ∧
    mkBatchKey 0 ≠ mkBatchKey 1 := by decide

/-- C3: for a durable store pre-populated with uniquely-keyed entries, all in
the engine's namespace, construction recovers exactly the concatenation of the
entries' event lists (each entry exactly once, in enumeration order), leaves
the store with none of those keys, and feeds the recovered batch through the
very same emit path (hence the same split-on-overflow rule). -/
theorem rehydration_exact (sink : Bool) (m : Nat) (p : Bool) (c0 : Nat) (st : Store)
    (hpre : ∀ e ∈ st, matchesNamespace e.1 = true)
    (hnd : (st.map Prod.fst).Nodup) :
    (rehydrateLoop (st.map Prod.fst) [] (cycleBatch (initState sink m p (some st) c0))).1
      = (st.map Prod.snd).flatten ∧
    (rehydrateLoop (st.map Prod.fst) [] (cycleBatch (initState sink m p (some st) c0))).2
      = { cycleBatch (initState sink m p (some st) c0) with durableStore := some [] } ∧
    construct sink m p (some st) c0
      = (emit
          (rehydrateLoop (st.map Prod.fst) [] (cycleBatch (initState sink m p (some st) c0))).1
          (rehydrateLoop (st.map Prod.fst) [] (cycleBatch (initState sink m p (some st) c0))).2).2 := by
  have hds : (cycleBatch (initState sink m p (some st) c0)).durableStore = some st := by
    rw [cycleBatch_durableStore]; rfl
  obtain ⟨h1, h2⟩ :=
    rehydrateLoop_spec st [] (cycleBatch (initState sink m p (some st) c0)) hds hpre hnd
  refine ⟨by rw [h1]; simp, h2, ?_⟩
  simp only [construct, hds]

/-- Witness for C3 at the concrete two-entry store. -/
theorem rehydration_exact_witness :
    (∀ e ∈ stC3, matchesNamespace e.1 = true) ∧ (stC3.map Prod.fst).Nodup ∧
    ((rehydrateLoop (stC3.map Prod.fst) [] (cycleBatch (initState true 10 false (some stC3) 0))).1
        = (stC3.map Prod.snd).flatten ∧
     (rehydrateLoop (stC3.map Prod.fst) [] (cycleBatch (initState true 10 false (some stC3) 0))).2
        = { cycleBatch (initState true 10 false (some stC3) 0) with durableStore := some [] } ∧
     construct true 10 false (some stC3) 0
        = (emit
            (rehydrateLoop (stC3.map Prod.fst) []
              (cycleBatch (initState true 10 false (some stC3) 0))).1
            (rehydrateLoop (stC3.map Prod.fst) []
              (cycleBatch (initState true 10 false (some stC3) 0))).2).2) :=
  ⟨by decide, by decide, rehydration_exact true 10 false 0 stC3 (by decide) (by decide)⟩
